import Mathlib

/-!
Shallow embedding of `strategy.py` (V20 signal scanner).

Prices are modelled as exact rationals `ℚ`.  A pandas cell that may be NaN
(the `MA200` column before 200 bars exist) is modelled as `Option ℚ`, with
`none` standing for NaN; the Python comparison `x < nan` evaluates to
`False`, which the embedding mirrors in `maFilter`.  Python's `round(x, 2)`
(round-half-to-even) is modelled exactly by `round2`.  A pandas operation
that raises (`df['Close'].iloc[-1]` on an empty frame) is modelled by an
`Option` result.
-/

set_option maxHeartbeats 1000000
set_option maxRecDepth 4000

attribute [local semireducible] Rat.ofScientific Rat.inv Rat.mul Rat.add Rat.sub

namespace V20

/-- Constant `THRESHOLD_PERCENT = 20` from strategy.py line 14. -/
def THRESHOLD_PERCENT : ℚ := 20

/-- Round-half-to-even to an integer, the semantics of Python `round`. -/
def rhalfeven (q : ℚ) : ℤ :=
  if q - ⌊q⌋ < 1/2 then ⌊q⌋
  else if 1/2 < q - ⌊q⌋ then ⌊q⌋ + 1
  else if ⌊q⌋ % 2 = 0 then ⌊q⌋ else ⌊q⌋ + 1

/-- Python `round(x, 2)`. -/
def round2 (q : ℚ) : ℚ := (rhalfeven (q * 100) : ℚ) / 100

/-- A raw OHLC bar: one row of the per-symbol dataframe handed to
`get_df` (after `dropna`), before the MA200 column is added.  The
`date` is the ISO-formatted index entry. -/
structure OHLCBar where
  date : String
  Open : ℚ
  High : ℚ
  Low : ℚ
  Close : ℚ
deriving DecidableEq

/-- A row of the annotated dataframe produced by `get_df`: the OHLC
columns plus `MA200`, which is `none` where pandas stores NaN (fewer
than 200 bars in the rolling window). -/
structure MABar where
  date : String
  Open : ℚ
  High : ℚ
  Low : ℚ
  Close : ℚ
  MA200 : Option ℚ
deriving DecidableEq

/-- One tuple appended to `signals` in `find_v20_signals`
(strategy.py lines 103-106). -/
structure Signal where
  sigDate : String
  buyAt : ℚ
  sellAt : ℚ
  pctMove : ℚ
  latestClose : ℚ
  proximity : ℚ
deriving DecidableEq

/-- The comparison `streak_low < cur.get('MA200', float('inf'))`
(strategy.py line 101).  The annotated dataframe always has the MA200
column, so `.get` returns the stored cell: a number, or NaN when fewer
than 200 bars exist.  A `<` comparison against NaN is `False` in
Python, hence the `none` case is `False`. -/
def maFilter (l : ℚ) : Option ℚ → Prop
  | none => False
  | some m => l < m

instance (l : ℚ) (o : Option ℚ) : Decidable (maFilter l o) :=
  match o with
  | none => isFalse id
  | some m => inferInstanceAs (Decidable (l < m))

/-- Models `cur['Low'] if streak_low is None else min(streak_low, cur['Low'])`
(strategy.py line 94). -/
def updMin : Option ℚ → ℚ → ℚ
  | none, x => x
  | some v, x => min v x

/-- Models `cur['High'] if streak_high is None else max(streak_high, cur['High'])`
(strategy.py line 95). -/
def updMax : Option ℚ → ℚ → ℚ
  | none, x => x
  | some v, x => max v x

/-- The body of the red-candle branch of `find_v20_signals`
(strategy.py lines 99-106).  Python's `if streak_low and streak_high:`
is truthiness: it requires both accumulators to be non-`None` and
nonzero. -/
def streakEval (latest : ℚ) (sl sh : Option ℚ) (cur : MABar) : List Signal :=
  match sl, sh with
  | some l, some h =>
    if l ≠ 0 ∧ h ≠ 0 then
      let pct := (h - l) / l * 100
      if THRESHOLD_PERCENT ≤ pct ∧ maFilter l cur.MA200 then
        [{ sigDate := cur.date, buyAt := round2 l, sellAt := round2 h,
           pctMove := round2 pct, latestClose := round2 latest,
           proximity := round2 (|latest - l| / l * 100) }]
      else []
    else []
  | _, _ => []

/-- The loop of `find_v20_signals` (strategy.py lines 89-107), with the
streak accumulators threaded explicitly; it is run on `df.drop 1`
because the Python loop is `for idx in range(1, len(df))`. -/
def v20Loop (latest : ℚ) (sl sh : Option ℚ) : List MABar → List Signal
  | [] => []
  | cur :: rest =>
    if cur.Close > cur.Open then
      v20Loop latest (some (updMin sl cur.Low)) (some (updMax sh cur.High)) rest
    else
      streakEval latest sl sh cur ++ v20Loop latest none none rest

/-- Function `find_v20_signals` (strategy.py lines 84-108).  On an empty frame
`df['Close'].iloc[-1]` raises IndexError, modelled as `none`. -/
def find_v20_signals (df : List MABar) : Option (List Signal) :=
  match df.getLast? with
  | none => none
  | some lastBar => some (v20Loop lastBar.Close none none (df.drop 1))

/-- The denominators of the divisions the red-candle branch executes:
`streak_low` for `pct_move` (line 100) and, when the signal condition
passes, `streak_low` again for `proximity` (line 102). -/
def streakEvalDenoms (sl sh : Option ℚ) (cur : MABar) : List ℚ :=
  match sl, sh with
  | some l, some h =>
    if l ≠ 0 ∧ h ≠ 0 then
      let pct := (h - l) / l * 100
      l :: (if THRESHOLD_PERCENT ≤ pct ∧ maFilter l cur.MA200 then [l] else [])
    else []
  | _, _ => []

/-- The denominators of every division executed by the loop of
`find_v20_signals`, in execution order. -/
def v20LoopDenoms (sl sh : Option ℚ) : List MABar → List ℚ
  | [] => []
  | cur :: rest =>
    if cur.Close > cur.Open then
      v20LoopDenoms (some (updMin sl cur.Low)) (some (updMax sh cur.High)) rest
    else
      streakEvalDenoms sl sh cur ++ v20LoopDenoms none none rest

/-- The denominators of every division executed by `find_v20_signals`. -/
def v20Denoms (df : List MABar) : List ℚ :=
  match df.getLast? with
  | none => []
  | some _ => v20LoopDenoms none none (df.drop 1)

/-- Models `df['Close'].rolling(window=w).mean()`: position `i` holds the mean
of entries `i-w+1 .. i` when at least `w` entries are available
(pandas `min_periods` defaults to the window size), NaN (`none`)
otherwise. -/
def rollingMean (w : ℕ) (xs : List ℚ) : List (Option ℚ) :=
  (List.range xs.length).map fun i =>
    if i + 1 < w then none
    else some (((xs.take (i + 1)).drop (i + 1 - w)).sum / (w : ℚ))

/-- Models `df['MA200'] = df['Close'].rolling(window=200).mean()`
(strategy.py line 80). -/
def annotateMA (df : List OHLCBar) : List MABar :=
  List.zipWith
    (fun (b : OHLCBar) m =>
      { date := b.date, Open := b.Open, High := b.High, Low := b.Low,
        Close := b.Close, MA200 := m })
    df (rollingMean 200 (df.map OHLCBar.Close))

/-- Function `get_df` (strategy.py lines 69-81).  `data` is the per-symbol view
of the bulk download after `dropna`: `none` models the `KeyError`
(symbol absent from the bulk frame); an empty frame is mapped to
`None` by the `df.empty` check; otherwise the MA200 column is added. -/
def get_df (data : String → Option (List OHLCBar)) (symbol : String) :
    Option (List MABar) :=
  match data symbol with
  | none => none
  | some df => if df.isEmpty then none else some (annotateMA df)

/-- One dict appended to `results` in `scan_stocks`
(strategy.py lines 120-128).  The Python keys `%Move` and `Proximity%`
are not valid Lean names and are rendered `PctMove` and `Proximity`. -/
structure ResultRow where
  SignalDate : String
  Symbol : String
  BuyAt : ℚ
  SellAt : ℚ
  PctMove : ℚ
  Close : ℚ
  Proximity : ℚ
deriving DecidableEq

/-- The tuple-to-dict conversion in `scan_stocks` (lines 119-128). -/
def signalToRow (sym : String) (s : Signal) : ResultRow :=
  { SignalDate := s.sigDate, Symbol := sym, BuyAt := s.buyAt,
    SellAt := s.sellAt, PctMove := s.pctMove, Close := s.latestClose,
    Proximity := s.proximity }

/-- The per-symbol body of the `for sym in all_stocks` loop in
`scan_stocks` (lines 114-128): a symbol whose `get_df` is `None` is
skipped; otherwise its signals are converted to rows.  `get_df` never
returns an empty frame, so the inner `none` case is unreachable. -/
def perSymbol (data : String → Option (List OHLCBar)) (sym : String) :
    List ResultRow :=
  match get_df data sym with
  | none => []
  | some df =>
    match find_v20_signals df with
    | none => []
    | some sigs => sigs.map (signalToRow sym)

/-- Row `a` may precede row `b` under
`results.sort(key=lambda x: (x['SignalDate'], x['Proximity%']), reverse=True)`
(strategy.py line 131): descending lexicographic order on the
(date, proximity) key. -/
def resGE (a b : ResultRow) : Prop :=
  if a.SignalDate = b.SignalDate then b.Proximity ≤ a.Proximity
  else b.SignalDate < a.SignalDate

instance : DecidableRel resGE := fun a b =>
  inferInstanceAs (Decidable (ite (a.SignalDate = b.SignalDate)
    (b.Proximity ≤ a.Proximity) (b.SignalDate < a.SignalDate)))

instance : IsTotal ResultRow resGE := ⟨by
  intro a b
  unfold resGE
  by_cases h : a.SignalDate = b.SignalDate
  · rw [if_pos h, if_pos h.symm]
    exact le_total b.Proximity a.Proximity
  · rw [if_neg h, if_neg (Ne.symm h)]
    exact (lt_or_gt_of_ne h).symm⟩

instance : IsTrans ResultRow resGE := ⟨by
  intro a b c hab hbc
  unfold resGE at hab hbc ⊢
  by_cases h1 : a.SignalDate = b.SignalDate <;>
    by_cases h2 : b.SignalDate = c.SignalDate
  · rw [if_pos h1] at hab
    rw [if_pos h2] at hbc
    rw [if_pos (h1.trans h2)]
    exact le_trans hbc hab
  · rw [if_pos h1] at hab
    rw [if_neg h2] at hbc
    have hac : a.SignalDate ≠ c.SignalDate := by rw [h1]; exact h2
    rw [if_neg hac, h1]
    exact hbc
  · rw [if_neg h1] at hab
    have hac : a.SignalDate ≠ c.SignalDate := by rw [← h2]; exact h1
    rw [if_neg hac, ← h2]
    exact hab
  · rw [if_neg h1] at hab
    rw [if_neg h2] at hbc
    have hca : c.SignalDate < a.SignalDate := lt_trans hbc hab
    rw [if_neg (ne_of_gt hca)]
    exact hca⟩

/-- Models `results.sort(..., reverse=True)`: Python's sort is stable, and for
a key-based total preorder a stable sort's output is unique, so the
stable `List.insertionSort` computes exactly the Python result. -/
def sortResults (l : List ResultRow) : List ResultRow :=
  List.insertionSort resGE l

/-- The ticker list of strategy.py lines 19-43. -/
def all_stocks : List String := [
  "3MINDIA", "AHLUCONT", "AIAENG", "AJANTPHARM", "AKZOINDIA", "ALKEM", "ANANDRATHI",
  "ANGELONE", "APARINDS", "APOLLOHOSP", "ARCHEM", "ASIANPAINT", "ASTRAL", "ASTRAZEN", "AWL",
  "AVANTIFEED", "BAJAJ-AUTO", "BAJAJHLDNG", "BASF", "BAYERCROP", "BEL", "BERGEPAINT", "BIKAJI",
  "BLUESTARCO", "BOSCHLTD", "BSOFT", "BSE", "CAPLIPOINT", "CARBORUNIV", "CAMS", "CASTROLIND",
  "CELLO", "CERA", "CHAMBLFERT", "CIPLA", "CMSINFO", "COALINDIA", "COCHINSHIP", "COLPAL",
  "CONCORDBIO", "COROMANDEL", "CROMPTON", "CRISIL", "CUMMINSIND", "DABUR", "DBCORP", "DEEPAKNTR",
  "DHANUKA", "DIXON", "DMART", "DRREDDY", "ECLERX", "EICHERMOT", "EIDPARRY", "EIHOTEL", "ELECON",
  "EMAMILTD", "ENGINERSIN", "ERIS", "FINEORG", "FORCEMOT", "FORTIS", "GANESHHOUC", "GARFIBRES",
  "GHCL", "GILLETTE", "GLAXO", "GODFRYPHLP", "GODREJCP", "GODREJIND", "GRINDWELL", "GRSE", "GSPL",
  "GUJGASLTD", "HAL", "HAPPYFORGE", "HAVELLS", "HCLTECH", "HEROMOTOCO", "HINDUNILVR", "HONAUT",
  "ICICIGI", "IEX", "IGL", "IMFA", "INDHOTEL", "INDIAMART", "INFY", "INGERRAND", "INTELLECT",
  "IONEXCHANG", "IRCTC", "ITC", "JBCHEPHARM", "JAIBALAJI", "JIOFIN", "JWL", "JYOTHYLAB",
  "JYOTICNC", "KAJARIACER", "KAMS", "KFINTECH", "KEI", "KIRLOSBROS", "KPIGREEN", "KPITTECH",
  "KPRMILL", "KSCL", "LALPATHLAB", "LICI", "LTIM", "LTTS", "MAHAPEXLTD", "MAHSEAMLES", "MANKIND",
  "MANINFRA", "MARICO", "MARUTI", "MCX", "MCDHOLDING", "MEDANTA", "MGL", "MISHTANN", "MPHASIS",
  "MRF", "MSUMI", "NAM-INDIA", "NATCOPHARM", "NBCC", "NEULANDLAB", "NEWGEN", "NESCO", "NIITLTD",
  "NMDC", "OFSS", "PAGEIND", "PETRONET", "PFIZER", "PGHH", "PGHL", "PIDILITIND", "PIIND", "POLYCAB",
  "POLYMED", "RADICO", "RAILTEL", "RATNAMANI", "RELAXO", "RITES", "ROUTE", "SANOFI", "SCHAEFFLER",
  "SEQUENT", "SHARDAMOTR", "SHAREINDIA", "SHRIPISTON", "SIEMENS", "SKFINDIA", "STYRENIX",
  "SUMICHEM", "SUNTV", "SUPREMEIND", "SURYAROSNI", "TANLA", "TATAELXSI", "TATAMOTORS", "TATATECH",
  "TBOTEK", "TEAMLEASE", "TECHM", "TIINDIA", "TIMKEN", "TITAGARH", "TRITURBINE", "UBL",
  "ULTRACEMCO", "UNITDSPR", "UPL", "URJAGLO", "USHAMART", "UTIAMC", "VBL", "VESUVIUS", "VOLTAMP",
  "VSTIND", "WSTCSTPAPR", "ZENSARTECH", "ZFCVINDIA", "ZENTEC"]

/-- Function `scan_stocks` (strategy.py lines 112-132), parametrised by the bulk
data (an external collaborator): accumulate rows per symbol in list
order, then sort. -/
def scan_stocks (data : String → Option (List OHLCBar)) : List ResultRow :=
  sortResults (all_stocks.flatMap (perSymbol data))

/-- Strictly increasing dates, the monotonicity notion of the spec for
a price series. -/
def dateStrictMono (df : List OHLCBar) : Prop :=
  List.Chain' (fun a b => a.date < b.date) df

instance (df : List OHLCBar) : Decidable (dateStrictMono df) :=
  inferInstanceAs (Decidable (List.Chain' (fun a b : OHLCBar => a.date < b.date) df))

/-! ### Concrete inputs used by the claims -/

/-- Day 1 of the spec's concrete scenario: (O,H,L,C) = (10,11,9,10.5), up. -/
def c1day1 : MABar :=
  { date := "2024-01-01", Open := 10, High := 11, Low := 9, Close := 10.5,
    MA200 := none }

/-- Day 2 of the spec's concrete scenario: (10.5,13,10.3,12.8), up. -/
def c1day2 : MABar :=
  { date := "2024-01-02", Open := 10.5, High := 13, Low := 10.3, Close := 12.8,
    MA200 := none }

/-- Day 3 of the spec's concrete scenario: (12.5,12.6,10,10.2), down,
with a given (defined) 200-bar moving average `m`. -/
def c1day3 (m : ℚ) : MABar :=
  { date := "2024-01-03", Open := 12.5, High := 12.6, Low := 10, Close := 10.2,
    MA200 := some m }

/-- The spec's 3-bar scenario with moving average `m` at the confirming bar. -/
def c1df (m : ℚ) : List MABar := [c1day1, c1day2, c1day3 m]

/-- The signal the code actually emits on `c1df m` when `10.3 < m`:
the streak covers only day 2 (the loop starts at index 1), so
low = 10.3, high = 13, percentMove = (13-10.3)/10.3*100 rounded = 26.21,
proximity = |10.2-10.3|/10.3*100 rounded = 0.97. -/
def c1sig : Signal :=
  { sigDate := "2024-01-03", buyAt := 10.3, sellAt := 13, pctMove := 26.21,
    latestClose := 10.2, proximity := 0.97 }

/-- The same 3-bar series as raw OHLC bars, fed through the real
`get_df` annotation (so MA200 is NaN everywhere: only 3 bars). -/
def c2bars : List OHLCBar :=
  [{ date := "2024-01-01", Open := 10, High := 11, Low := 9, Close := 10.5 },
   { date := "2024-01-02", Open := 10.5, High := 13, Low := 10.3, Close := 12.8 },
   { date := "2024-01-03", Open := 12.5, High := 12.6, Low := 10, Close := 10.2 }]

/-- A 3-bar frame that emits one signal: bar 1 is green with
low 10 / high 13 (a 30% move), bar 2 is red with a defined moving
average above the streak low. -/
def wdf : List MABar :=
  [{ date := "2024-01-01", Open := 1, High := 1, Low := 1, Close := 1, MA200 := none },
   { date := "2024-01-02", Open := 10.5, High := 13, Low := 10, Close := 12.9, MA200 := none },
   { date := "2024-01-03", Open := 12.5, High := 12.6, Low := 11, Close := 12, MA200 := some 1000 }]

/-- The signal emitted on `wdf`. -/
def wsig : Signal :=
  { sigDate := "2024-01-03", buyAt := 10, sellAt := 13, pctMove := 30,
    latestClose := 12, proximity := 20 }

/-- A 2-bar all-green frame. -/
def gdf : List MABar :=
  [{ date := "2024-01-01", Open := 1, High := 3, Low := 1, Close := 2, MA200 := none },
   { date := "2024-01-02", Open := 2, High := 4, Low := 2, Close := 3, MA200 := none }]

/-- A 1-bar frame. -/
def oneBarDf : List MABar :=
  [{ date := "2024-01-01", Open := 1, High := 2, Low := 1, Close := 1.5, MA200 := none }]

/-- A well-formed frame (low ≤ high on every bar, all prices positive)
whose streak low 0.004 rounds to 0: bar 1 is green with low 0.004 and
high 0.005 (a 25% move), bar 2 is red with a defined moving average. -/
def c10df : List MABar :=
  [{ date := "2024-01-01", Open := 1, High := 1, Low := 1, Close := 1, MA200 := none },
   { date := "2024-01-02", Open := 0.004, High := 0.005, Low := 0.004, Close := 0.005, MA200 := none },
   { date := "2024-01-03", Open := 0.005, High := 0.005, Low := 0.004, Close := 0.004, MA200 := some 1 }]

/-- The signal emitted on `c10df`: its `buyAt` is `round2 0.004 = 0`. -/
def c10sig : Signal :=
  { sigDate := "2024-01-03", buyAt := 0, sellAt := 0, pctMove := 25,
    latestClose := 0, proximity := 0 }

/-- A non-empty series whose dates are out of order. -/
def c8nonMono : List OHLCBar :=
  [{ date := "2024-01-02", Open := 1, High := 1, Low := 1, Close := 1 },
   { date := "2024-01-01", Open := 1, High := 1, Low := 1, Close := 1 }]

/-- A result row with a given date and proximity (other fields fixed). -/
def mkRow (d : String) (p : ℚ) : ResultRow :=
  { SignalDate := d, Symbol := "X", BuyAt := 1, SellAt := 2, PctMove := 30,
    Close := 1, Proximity := p }

/-- A bulk-data stub for the aggregator: symbol "B" resolves to the
3-bar series, every other symbol is a lookup miss. -/
def w7data : String → Option (List OHLCBar) :=
  fun s => if s = "B" then some c2bars else none

/-! ### Helper lemmas -/

theorem floor_le_rhalfeven (q : ℚ) : ⌊q⌋ ≤ rhalfeven q := by
  unfold rhalfeven
  split_ifs <;> omega

theorem rhalfeven_le_add_half (q : ℚ) : (rhalfeven q : ℚ) ≤ q + 1/2 := by
  have hf1 : (⌊q⌋ : ℚ) ≤ q := Int.floor_le q
  have hf2 : q < (⌊q⌋ : ℚ) + 1 := Int.lt_floor_add_one q
  unfold rhalfeven
  split_ifs with h1 h2 h3 <;> push_cast <;> linarith

theorem sub_half_le_rhalfeven (q : ℚ) : q - 1/2 ≤ (rhalfeven q : ℚ) := by
  have hf1 : (⌊q⌋ : ℚ) ≤ q := Int.floor_le q
  have hf2 : q < (⌊q⌋ : ℚ) + 1 := Int.lt_floor_add_one q
  unfold rhalfeven
  split_ifs with h1 h2 h3 <;> push_cast <;> linarith

theorem rhalfeven_mono {x y : ℚ} (hxy : x ≤ y) : rhalfeven x ≤ rhalfeven y := by
  by_contra hc
  push_neg at hc
  have h3 : (rhalfeven y : ℚ) + 1 ≤ (rhalfeven x : ℚ) := by
    have := Int.add_one_le_of_lt hc
    exact_mod_cast this
  have h1 := rhalfeven_le_add_half x
  have h2 := sub_half_le_rhalfeven y
  have hyx : y ≤ x := by linarith
  have hxy2 : x = y := le_antisymm hxy hyx
  subst hxy2
  exact absurd hc (lt_irrefl _)

theorem round2_mono {x y : ℚ} (hxy : x ≤ y) : round2 x ≤ round2 y := by
  unfold round2
  have h : rhalfeven (x * 100) ≤ rhalfeven (y * 100) :=
    rhalfeven_mono (by linarith)
  have h2 : (rhalfeven (x * 100) : ℚ) ≤ (rhalfeven (y * 100) : ℚ) := by
    exact_mod_cast h
  linarith

theorem round2_threshold {q : ℚ} (h : THRESHOLD_PERCENT ≤ q) :
    THRESHOLD_PERCENT ≤ round2 q := by
  unfold THRESHOLD_PERCENT at *
  have h1 : (2000 : ℤ) ≤ ⌊q * 100⌋ := Int.le_floor.mpr (by push_cast; linarith)
  have h2 := floor_le_rhalfeven (q * 100)
  have h3 : (2000 : ℚ) ≤ (rhalfeven (q * 100) : ℚ) := by exact_mod_cast le_trans h1 h2
  unfold round2
  linarith

theorem round2_nonneg {q : ℚ} (h : 0 < q) : 0 ≤ round2 q := by
  have h1 : (0 : ℤ) ≤ ⌊q * 100⌋ := Int.le_floor.mpr (by push_cast; linarith)
  have h2 := floor_le_rhalfeven (q * 100)
  have h3 : (0 : ℚ) ≤ (rhalfeven (q * 100) : ℚ) := by exact_mod_cast le_trans h1 h2
  unfold round2
  linarith

theorem updMin_le (o : Option ℚ) (x : ℚ) : updMin o x ≤ x := by
  cases o with
  | none => exact le_refl x
  | some v => exact min_le_right v x

theorem le_updMax (o : Option ℚ) (x : ℚ) : x ≤ updMax o x := by
  cases o with
  | none => exact le_refl x
  | some v => exact le_max_right v x

/-- Inversion of the red-candle evaluation: a signal it emits records a
streak whose guarded low is nonzero and whose percent move meets the
threshold. -/
theorem mem_streakEval {latest : ℚ} {sl sh : Option ℚ} {cur : MABar} {s : Signal}
    (hs : s ∈ streakEval latest sl sh cur) :
    ∃ l h, sl = some l ∧ sh = some h ∧ l ≠ 0 ∧ h ≠ 0 ∧
      THRESHOLD_PERCENT ≤ (h - l) / l * 100 ∧ maFilter l cur.MA200 ∧
      s = { sigDate := cur.date, buyAt := round2 l, sellAt := round2 h,
            pctMove := round2 ((h - l) / l * 100), latestClose := round2 latest,
            proximity := round2 (|latest - l| / l * 100) } := by
  rcases sl with _ | l
  · simp [streakEval] at hs
  rcases sh with _ | h
  · simp [streakEval] at hs
  simp only [streakEval] at hs
  split_ifs at hs with h1 h2
  · simp only [List.mem_singleton] at hs
    exact ⟨l, h, rfl, rfl, h1.1, h1.2, h2.1, h2.2, hs⟩
  · simp at hs
  · simp at hs

/-- Inversion of the whole detection loop, from any starting state. -/
theorem mem_v20Loop {latest : ℚ} {bars : List MABar} :
    ∀ {sl sh : Option ℚ} {s : Signal}, s ∈ v20Loop latest sl sh bars →
    ∃ (l h : ℚ) (cur : MABar), l ≠ 0 ∧ h ≠ 0 ∧
      THRESHOLD_PERCENT ≤ (h - l) / l * 100 ∧ maFilter l cur.MA200 ∧
      s = { sigDate := cur.date, buyAt := round2 l, sellAt := round2 h,
            pctMove := round2 ((h - l) / l * 100), latestClose := round2 latest,
            proximity := round2 (|latest - l| / l * 100) } := by
  induction bars with
  | nil => intro sl sh s hs; simp [v20Loop] at hs
  | cons cur rest ih =>
    intro sl sh s hs
    rw [v20Loop] at hs
    split at hs
    · exact ih hs
    · rcases List.mem_append.mp hs with h1 | h2
      · obtain ⟨l, h, _, _, hl0, hh0, hth, hma, hse⟩ := mem_streakEval h1
        exact ⟨l, h, cur, hl0, hh0, hth, hma, hse⟩
      · exact ih h2

/-- Inversion of the loop under per-bar well-formedness
(`low ≤ high`), carrying the accumulator invariant `low ≤ high`. -/
theorem mem_v20Loop_le {latest : ℚ} {bars : List MABar} :
    ∀ {sl sh : Option ℚ} {s : Signal},
    (∀ b ∈ bars, b.Low ≤ b.High) →
    (∀ l h, sl = some l → sh = some h → l ≤ h) →
    s ∈ v20Loop latest sl sh bars →
    ∃ l h, l ≤ h ∧ l ≠ 0 ∧ THRESHOLD_PERCENT ≤ (h - l) / l * 100 ∧
      s.buyAt = round2 l ∧ s.sellAt = round2 h := by
  induction bars with
  | nil => intro sl sh s _ _ hs; simp [v20Loop] at hs
  | cons cur rest ih =>
    intro sl sh s hwf hinv hs
    have hwf' : ∀ b ∈ rest, b.Low ≤ b.High :=
      fun b hb => hwf b (List.mem_cons_of_mem _ hb)
    have hcur : cur.Low ≤ cur.High := hwf cur (List.mem_cons_self _ _)
    rw [v20Loop] at hs
    split at hs
    · refine ih hwf' ?_ hs
      intro l h hl hh
      injection hl with hl; injection hh with hh
      subst hl; subst hh
      calc updMin sl cur.Low ≤ cur.Low := updMin_le sl cur.Low
        _ ≤ cur.High := hcur
        _ ≤ updMax sh cur.High := le_updMax sh cur.High
    · rcases List.mem_append.mp hs with h1 | h2
      · obtain ⟨l, h, hsl, hsh, hl0, _, hth, _, hse⟩ := mem_streakEval h1
        exact ⟨l, h, hinv l h hsl hsh, hl0, hth, by rw [hse], by rw [hse]⟩
      · exact ih hwf' (by intro l h hl hh; cases hl) h2

/-- A nonzero streak low whose percent move meets the threshold is
positive whenever `low ≤ high`. -/
theorem streak_low_pos {l h : ℚ} (hlh : l ≤ h) (hl0 : l ≠ 0)
    (hth : THRESHOLD_PERCENT ≤ (h - l) / l * 100) : 0 < l := by
  rcases lt_trichotomy l 0 with hneg | hz | hpos
  · exfalso
    have hnum : (0 : ℚ) ≤ h - l := by linarith
    have hdiv : (h - l) / l ≤ 0 := div_nonpos_iff.mpr (Or.inl ⟨hnum, le_of_lt hneg⟩)
    unfold THRESHOLD_PERCENT at hth
    linarith
  · exact absurd hz hl0
  · exact hpos

/-- All denominators recorded by the red-candle evaluation are nonzero. -/
theorem mem_streakEvalDenoms {sl sh : Option ℚ} {cur : MABar} {x : ℚ}
    (hx : x ∈ streakEvalDenoms sl sh cur) : x ≠ 0 := by
  rcases sl with _ | l
  · simp [streakEvalDenoms] at hx
  rcases sh with _ | h
  · simp [streakEvalDenoms] at hx
  simp only [streakEvalDenoms] at hx
  split_ifs at hx with h1 h2
  · simp only [List.mem_cons, List.mem_singleton, List.not_mem_nil, or_false] at hx
    rcases hx with rfl | rfl <;> exact h1.1
  · simp only [List.mem_cons, List.not_mem_nil, or_false] at hx
    subst hx
    exact h1.1
  · simp at hx

/-- All denominators recorded by the detection loop are nonzero. -/
theorem mem_v20LoopDenoms {bars : List MABar} :
    ∀ {sl sh : Option ℚ} {x : ℚ}, x ∈ v20LoopDenoms sl sh bars → x ≠ 0 := by
  induction bars with
  | nil => intro sl sh x hx; simp [v20LoopDenoms] at hx
  | cons cur rest ih =>
    intro sl sh x hx
    rw [v20LoopDenoms] at hx
    split at hx
    · exact ih hx
    · rcases List.mem_append.mp hx with h1 | h2
      · exact mem_streakEvalDenoms h1
      · exact ih h2

/-- A run of bars that are all green never reaches the evaluation
branch, regardless of the accumulator state. -/
theorem v20Loop_all_green {latest : ℚ} {bars : List MABar}
    (hg : ∀ b ∈ bars, b.Open < b.Close) :
    ∀ sl sh, v20Loop latest sl sh bars = [] := by
  induction bars with
  | nil => intro sl sh; rfl
  | cons cur rest ih =>
    intro sl sh
    rw [v20Loop, if_pos (hg cur (List.mem_cons_self _ _))]
    exact ih (fun b hb => hg b (List.mem_cons_of_mem _ hb)) _ _

/-! ### Claim theorems -/

/-- C3: for every input series, every signal emitted by
`find_v20_signals` has `percentMove ≥ THRESHOLD_PERCENT` (default 20);
no signal below the threshold is ever created. -/
theorem emitted_pctMove_ge_threshold (df : List MABar) (sigs : List Signal)
    (hf : find_v20_signals df = some sigs) :
    ∀ s ∈ sigs, THRESHOLD_PERCENT ≤ s.pctMove := by
  intro s hs
  unfold find_v20_signals at hf
  split at hf
  · cases hf
  · injection hf with hf
    subst hf
    obtain ⟨l, h, cur, _, _, hth, _, rfl⟩ := mem_v20Loop hs
    exact round2_threshold hth

/-- C3 witness: a concrete frame emits one signal and that signal meets
the threshold. -/
theorem emitted_pctMove_ge_threshold_witness :
    find_v20_signals wdf = some [wsig] ∧ THRESHOLD_PERCENT ≤ wsig.pctMove :=
  ⟨by decide, emitted_pctMove_ge_threshold wdf [wsig] (by decide) wsig (by decide)⟩

/-- C5: for every input series in which each bar's low is ≤ its high,
every emitted signal satisfies `buyAt ≤ sellAt`. -/
theorem emitted_buy_le_sell (df : List MABar) (sigs : List Signal)
    (hwf : ∀ b ∈ df, b.Low ≤ b.High)
    (hf : find_v20_signals df = some sigs) :
    ∀ s ∈ sigs, s.buyAt ≤ s.sellAt := by
  intro s hs
  unfold find_v20_signals at hf
  split at hf
  · cases hf
  · injection hf with hf
    subst hf
    obtain ⟨l, h, hlh, _, _, hbuy, hsell⟩ :=
      mem_v20Loop_le (fun b hb => hwf b (List.mem_of_mem_drop hb))
        (fun l h hl _ => by cases hl) hs
    rw [hbuy, hsell]
    exact round2_mono hlh

/-- C5 witness: a concrete well-formed frame emits one signal with
`buyAt ≤ sellAt`. -/
theorem emitted_buy_le_sell_witness :
    (∀ b ∈ wdf, b.Low ≤ b.High) ∧ find_v20_signals wdf = some [wsig] ∧
      wsig.buyAt ≤ wsig.sellAt :=
  ⟨by decide, by decide,
   emitted_buy_le_sell wdf [wsig] (by decide) (by decide) wsig (by decide)⟩

/-- C6: a series consisting entirely of up-candles (close > open at
every bar) produces no signal: the streak is never closed by a non-up
candle, so `find_v20_signals` returns the empty list. -/
theorem all_up_candles_no_signal (df : List MABar) (hne : df ≠ [])
    (hg : ∀ b ∈ df, b.Open < b.Close) :
    find_v20_signals df = some [] := by
  unfold find_v20_signals
  cases hl : df.getLast? with
  | none => exact absurd (List.getLast?_eq_none_iff.mp hl) hne
  | some lastBar =>
    exact congrArg some
      (v20Loop_all_green (fun b hb => hg b (List.mem_of_mem_drop hb)) none none)

/-- C6 witness: a 2-bar all-green frame emits nothing. -/
theorem all_up_candles_no_signal_witness :
    gdf ≠ [] ∧ (∀ b ∈ gdf, b.Open < b.Close) ∧
      find_v20_signals gdf = some [] :=
  ⟨by decide, by decide, all_up_candles_no_signal gdf (by decide) (by decide)⟩

/-- C9 counterexample: on the empty series `find_v20_signals` does not
return zero signals — `df['Close'].iloc[-1]` raises (modelled `none`),
so the result is not `some []`. -/
theorem empty_series_raises_cex :
    find_v20_signals ([] : List MABar) = none ∧
      find_v20_signals ([] : List MABar) ≠ some [] := by
  exact ⟨rfl, by decide⟩

/-- C9 amended: for every series with exactly one bar,
`find_v20_signals` returns zero signals without error (the loop
starting at index 1 has nothing to process); the empty series instead
makes the latest-close access fail, though `scan_stocks` never passes
one (`get_df` maps empty frames to `None`). -/
theorem single_bar_no_signal (df : List MABar) (h1 : df.length = 1) :
    find_v20_signals df = some [] := by
  obtain ⟨b, rfl⟩ := List.length_eq_one.mp h1
  rfl

/-- C9 witness: the 1-bar frame yields `some []`. -/
theorem single_bar_no_signal_witness :
    oneBarDf.length = 1 ∧ find_v20_signals oneBarDf = some [] :=
  ⟨rfl, single_bar_no_signal oneBarDf rfl⟩

/-- C10 amended: no division performed by `find_v20_signals` has a zero
denominator (the truthiness guard requires both accumulators nonzero),
and under per-bar `low ≤ high` every emitted signal has `buyAt ≥ 0`
(`buyAt > 0` can fail: a small positive streak low rounds to 0). -/
theorem no_division_by_zero :
    (∀ df : List MABar, (0 : ℚ) ∉ v20Denoms df) ∧
    (∀ (df : List MABar) (sigs : List Signal),
      (∀ b ∈ df, b.Low ≤ b.High) → find_v20_signals df = some sigs →
      ∀ s ∈ sigs, 0 ≤ s.buyAt) := by
  constructor
  · intro df hx
    unfold v20Denoms at hx
    split at hx
    · simp at hx
    · exact mem_v20LoopDenoms hx rfl
  · intro df sigs hwf hf s hs
    unfold find_v20_signals at hf
    split at hf
    · cases hf
    · injection hf with hf
      subst hf
      obtain ⟨l, h, hlh, hl0, hth, hbuy, _⟩ :=
        mem_v20Loop_le (fun b hb => hwf b (List.mem_of_mem_drop hb))
          (fun l h hl _ => by cases hl) hs
      rw [hbuy]
      exact round2_nonneg (streak_low_pos hlh hl0 hth)

/-- C10 counterexample: a well-formed positive-price series whose
streak low is 0.001 emits a signal with `buyAt = round2 0.001 = 0`,
refuting `buyAt > 0`. -/
theorem buyAt_zero_cex :
    (∀ b ∈ c10df, 0 < b.Low ∧ b.Low ≤ b.High) ∧
      find_v20_signals c10df = some [c10sig] ∧ ¬ (0 < c10sig.buyAt) := by
  decide

/-- C10 witness: on the concrete frame the denominators avoid zero and
the emitted signal has nonnegative `buyAt`. -/
theorem no_division_by_zero_witness :
    ((0 : ℚ) ∉ v20Denoms c10df) ∧ (∀ b ∈ c10df, b.Low ≤ b.High) ∧
      (0 : ℚ) ≤ c10sig.buyAt :=
  ⟨no_division_by_zero.1 c10df, by decide,
   no_division_by_zero.2 c10df [c10sig] (by decide) (by decide) c10sig (by decide)⟩

/-- C1 counterexample: on the spec's 3-bar scenario with a defined
moving average of 100 at the confirming bar (both `9 < 100` and
`10.3 < 100` hold), the emitted signal has `buyAt = 10.3`, not 9.0,
and `percentMove = 26.21`, not 44.44: day 1 never joins the streak. -/
theorem first_bar_excluded_cex :
    find_v20_signals (c1df 100) = some [c1sig] ∧
      c1sig.buyAt ≠ 9 ∧ c1sig.pctMove ≠ 44.44 := by
  decide

/-- Evaluation of the closing red candle of the scenario when the
moving-average cell is defined and above the streak low. -/
theorem streakEval_c1 (m : ℚ) (hm : (10.3 : ℚ) < m) :
    streakEval 10.2 (some 10.3) (some 13) (c1day3 m) = [c1sig] := by
  simp only [streakEval]
  rw [if_pos (by norm_num : ((10.3 : ℚ) ≠ 0 ∧ (13 : ℚ) ≠ 0))]
  rw [if_pos (⟨by norm_num [THRESHOLD_PERCENT],
        by simpa [c1day3, maFilter] using hm⟩ :
      THRESHOLD_PERCENT ≤ ((13 : ℚ) - 10.3) / 10.3 * 100 ∧
        maFilter 10.3 (c1day3 m).MA200)]
  simp only [c1day3]
  decide

/-- C1 amended: the detection loop starts at index 1, so the streak of
the spec's scenario covers only day 2: low = 10.3 (not 9, the day-1
low), high = 13, percentMove = 26.21 (not 44.44); whenever the
moving-average condition at day 3 holds (`10.3 < m`), the emitted
signal has buyAt = 10.3 and sellAt = 13.0. -/
theorem streak_starts_at_second_bar (m : ℚ) (hm : (10.3 : ℚ) < m) :
    find_v20_signals (c1df m) = some [c1sig] := by
  have h2 : v20Loop 10.2 none none [c1day2, c1day3 m]
      = streakEval 10.2 (some 10.3) (some 13) (c1day3 m) := by
    norm_num [v20Loop, c1day2, c1day3, updMin, updMax]
  calc find_v20_signals (c1df m)
      = some (v20Loop 10.2 none none [c1day2, c1day3 m]) := rfl
    _ = some (streakEval 10.2 (some 10.3) (some 13) (c1day3 m)) := by rw [h2]
    _ = some [c1sig] := by rw [streakEval_c1 m hm]

/-- C1 witness: the amended claim at `m = 100`. -/
theorem streak_starts_at_second_bar_witness :
    (10.3 : ℚ) < 100 ∧ find_v20_signals (c1df 100) = some [c1sig] :=
  ⟨by norm_num, streak_starts_at_second_bar 100 (by norm_num)⟩

/-- C2: the spec's 3-bar scenario fed through the real moving-average
step has MA200 = NaN everywhere (fewer than 200 bars), and the code
emits NO signal — `streak_low < NaN` is `False` in Python, so an
undefined moving average blocks emission, contrary to the claimed
infinity convention (the `float('inf')` default on line 101 is dead:
the MA200 column always exists). -/
theorem undefined_ma_blocks_emission :
    find_v20_signals (annotateMA c2bars) = some [] ∧
      (∀ b ∈ annotateMA c2bars, b.MA200 = none) ∧
      (annotateMA c2bars).length < 200 := by
  decide

/-- C8 counterexample: a non-empty series with out-of-order dates is
annotated without any error by `get_df` — monotonicity is never
checked, so "fails if non-monotonic" is false. -/
theorem nonmonotonic_series_ok_cex :
    ¬ dateStrictMono c8nonMono ∧ c8nonMono ≠ [] ∧
      get_df (fun _ => some c8nonMono) "X" ≠ none := by
  refine ⟨?_, by decide, ?_⟩
  · intro hmono
    unfold dateStrictMono c8nonMono at hmono
    rw [List.chain'_cons] at hmono
    have h := hmono.1
    rw [String.lt_iff_toList_lt] at h
    exact absurd h (by decide)
  · intro h
    simp [get_df, c8nonMono] at h

/-- C8 amended: the per-symbol retrieval-and-annotation step fails
(returns `None`) exactly when the symbol's series is unavailable
(lookup miss) or empty; monotonicity plays no role. -/
theorem get_df_none_iff (data : String → Option (List OHLCBar)) (sym : String) :
    get_df data sym = none ↔ (data sym = none ∨ data sym = some []) := by
  unfold get_df
  cases hd : data sym with
  | none => simp
  | some df =>
    cases df with
    | nil => simp
    | cons b rest => simp [List.isEmpty_cons]

/-- C4: `scan_stocks` output is sorted descending by `SignalDate` and,
within equal dates, descending by `Proximity%`; concretely, with equal
dates the proximity-9 row precedes the proximity-5 row, and a
"2024-01-10" row precedes a "2024-01-09" row for any proximities. -/
theorem scan_stocks_sorted_desc :
    (∀ data : String → Option (List OHLCBar),
        List.Sorted resGE (scan_stocks data)) ∧
    sortResults [mkRow "2024-01-10" 5, mkRow "2024-01-10" 9]
      = [mkRow "2024-01-10" 9, mkRow "2024-01-10" 5] ∧
    (∀ p q : ℚ, sortResults [mkRow "2024-01-09" p, mkRow "2024-01-10" q]
      = [mkRow "2024-01-10" q, mkRow "2024-01-09" p]) := by
  refine ⟨fun data => List.sorted_insertionSort resGE _,
    by decide, fun p q => ?_⟩
  have h1 : ¬ resGE (mkRow "2024-01-09" p) (mkRow "2024-01-10" q) := by
    simp only [resGE, mkRow]
    rw [if_neg (by decide : ¬ ("2024-01-09" : String) = "2024-01-10")]
    rw [String.lt_iff_toList_lt]
    decide
  simp [sortResults, List.insertionSort, List.orderedInsert, h1]

/-- C7: a symbol whose series is unavailable (`None`) or empty
contributes no rows, and dropping it from the ticker list leaves the
scan's result unchanged — the whole scan never aborts. -/
theorem unavailable_symbol_skipped (data : String → Option (List OHLCBar))
    (sym : String) (hbad : data sym = none ∨ data sym = some []) :
    perSymbol data sym = [] ∧
    (∀ stocks : List String,
      stocks.flatMap (perSymbol data)
        = (stocks.filter (fun s => s ≠ sym)).flatMap (perSymbol data)) ∧
    scan_stocks data
      = sortResults ((all_stocks.filter (fun s => s ≠ sym)).flatMap
          (perSymbol data)) := by
  have hper : perSymbol data sym = [] := by
    unfold perSymbol
    rw [(get_df_none_iff data sym).mpr hbad]
  have hflat : ∀ stocks : List String,
      stocks.flatMap (perSymbol data)
        = (stocks.filter (fun s => s ≠ sym)).flatMap (perSymbol data) := by
    intro stocks
    induction stocks with
    | nil => rfl
    | cons s rest ih =>
      by_cases hs : s = sym
      · subst hs
        rw [List.flatMap_cons, hper, List.filter_cons]
        simpa using ih
      · rw [List.flatMap_cons, List.filter_cons]
        have hp : decide (s ≠ sym) = true := by simp [hs]
        rw [if_pos hp, List.flatMap_cons, ih]
  exact ⟨hper, hflat, congrArg sortResults (hflat all_stocks)⟩

/-- C7 witness: with a provider that misses symbol "A", the skip
properties hold concretely. -/
theorem unavailable_symbol_skipped_witness :
    w7data "A" = none ∧
    (perSymbol w7data "A" = [] ∧
    (∀ stocks : List String,
      stocks.flatMap (perSymbol w7data)
        = (stocks.filter (fun s => s ≠ "A")).flatMap (perSymbol w7data)) ∧
    scan_stocks w7data
      = sortResults ((all_stocks.filter (fun s => s ≠ "A")).flatMap
          (perSymbol w7data))) :=
  ⟨by decide,
   unavailable_symbol_skipped w7data "A" (Or.inl (by decide))⟩

end V20
